import Mathlib

/-!
Verification development for the hybrid invoice-extraction pipeline of the
Extractor_Facturas repository.  The definitions below are a shallow embedding
of the Python sources `processing/data_extractor.py`, `ml/invoice_classifier.py`,
`ml/field_extractor_ml.py` and `ml/training_manager.py`:

* Python strings are Lean `String`; substring tests, `str.strip`, `str.replace`
  and `str.lower`/`str.upper` are embedded as executable functions on character
  lists with the same semantics on the ASCII data the pipeline handles.
* Python dicts are association lists in insertion order; `d[k] = v` replaces
  the first binding of `k` in place or appends a new one, exactly as a Python
  dict does.
* Python floats produced by `float(...)` on decimal literals are embedded as
  rationals; the code never performs any arithmetic on them, it only stores
  the parsed value, so the rational value is a faithful model.
* A raised exception is modelled explicitly (`Except`, or the `VOutcome.exn`
  constructor for the pluggable field validators) where a claim is about
  exception handling; the concrete validators of the repository never raise.
-/

/-! ## Character and string helpers (models of the Python str primitives) -/

/-- Decimal digit test, the model of the regex class `\d`. -/
def esDigito (c : Char) : Bool :=
  decide (48 ≤ c.toNat) && decide (c.toNat ≤ 57)

/-- Numeric value of a digit character. -/
def valorDigito (c : Char) : Nat := c.toNat - 48

/-- Digit character for a value below 10 (used to model zero-padded
`strftime` output). -/
def digitChar (n : Nat) : Char := Char.ofNat (48 + n)

/-- Value of a digit string read left to right, the model of `int` conversion
performed by `strptime` on a digit group. -/
def valorDigitos (l : List Char) : Nat :=
  l.foldl (fun a c => 10 * a + valorDigito c) 0

/-- ASCII whitespace recognised by Python `str.strip()` (the inputs of the
pipeline are ASCII OCR text). -/
def esEspacio (c : Char) : Bool :=
  c == ' ' || c == '\t' || c == '\n' || c == '\r' || c == Char.ofNat 11 || c == Char.ofNat 12

/-- Model of Python `str.strip()` on a character list. -/
def stripList (l : List Char) : List Char :=
  ((l.dropWhile esEspacio).reverse.dropWhile esEspacio).reverse

/-- Model of Python `str.strip()`. -/
def pyStrip (s : String) : String := ⟨stripList s.toList⟩

/-- Does `l` start with `pat`?  (Model of Python startswith, used by the
substring and replace models.) -/
def empiezaCon : List Char → List Char → Bool
  | [], _ => true
  | _ :: _, [] => false
  | p :: ps, c :: cs => p == c && empiezaCon ps cs

/-- Model of the Python substring test `pat in l`. -/
def contiene : List Char → List Char → Bool
  | [], pat => pat.isEmpty
  | c :: cs, pat => empiezaCon pat (c :: cs) || contiene cs pat

/-- One fuel-indexed step list of Python `str.replace` (all non-overlapping
occurrences, left to right); the fuel is the length of the subject, which
bounds the number of steps because the pattern is non-empty. -/
def reemplazaAux : Nat → List Char → List Char → List Char → List Char
  | 0, l, _, _ => l
  | fuel + 1, l, pat, rep =>
    match l with
    | [] => []
    | c :: cs =>
      if empiezaCon pat (c :: cs) then
        rep ++ reemplazaAux fuel ((c :: cs).drop pat.length) pat rep
      else
        c :: reemplazaAux fuel cs pat rep

/-- Model of Python `str.replace` on character lists. -/
def reemplaza (l pat rep : List Char) : List Char :=
  if pat.isEmpty then l else reemplazaAux l.length l pat rep

/-- Model of Python `str.replace`. -/
def pyReplace (s pat rep : String) : String :=
  ⟨reemplaza s.toList pat.toList rep.toList⟩

/-- ASCII lowercase conversion of one character, the model of `str.lower`
on the ASCII keyword data of the pipeline. -/
def aMinuscula (c : Char) : Char :=
  if 65 ≤ c.toNat ∧ c.toNat ≤ 90 then Char.ofNat (c.toNat + 32) else c

/-- ASCII uppercase conversion of one character, the model of `str.upper`. -/
def aMayuscula (c : Char) : Char :=
  if 97 ≤ c.toNat ∧ c.toNat ≤ 122 then Char.ofNat (c.toNat - 32) else c

/-- Model of Python `str.lower()` on a character list. -/
def minusculas (l : List Char) : List Char := l.map aMinuscula

/-- Model of the Python test `pat.lower() in texto.lower()` used throughout
the rule-based classifier. -/
def textoContiene (texto pat : String) : Bool :=
  contiene (minusculas texto.toList) (minusculas pat.toList)

/-! ## Python dict model (association lists in insertion order) -/

/-- Lookup in a Python dict modelled as an association list. -/
def dictGet {α : Type} : List (String × α) → String → Option α
  | [], _ => none
  | (k', v) :: rest, k => if k' = k then some v else dictGet rest k

/-- Python dict assignment `d[k] = v`: replace the first binding in place, or
append a new binding. -/
def dictSet {α : Type} : List (String × α) → String → α → List (String × α)
  | [], k, v => [(k, v)]
  | (k', v') :: rest, k, v =>
    if k' = k then (k, v) :: rest else (k', v') :: dictSet rest k v

/-! ## Classifier (`ml/invoice_classifier.py`) -/

/-- Keyword patterns per invoice category, in the insertion order of the
`invoice_patterns` dict (`InvoiceClassifier.__init__`). -/
def invoicePatterns : List (String × List String) :=
  [("dominican", ["RNC", "NCF", "ITBIS", "RD$", "COMPROBANTE FISCAL", "DGII"]),
   ("international", ["NIT", "IVA", "USD", "TAX", "INVOICE", "VAT"]),
   ("peaje", ["Ticket", "Peaje", "Vehiculo", "Importe", "Estacion", "Vial"]),
   ("simple", ["Factura", "Total", "Fecha", "Cliente", "Producto"]),
   ("detailed", ["Subtotal", "Descuento", "Impuesto", "Items", "Cantidad", "Precio"])]

/-- Number of keyword patterns of a category that occur in the lowered text
(the pattern-count loop of `_predict_by_rules`). -/
def cuentaPatrones (texto : String) (pats : List String) : Nat :=
  (pats.filter (fun p => textoContiene texto p)).length

/-- Lowercase literal containment, the model of `'lit' in text_lower`. -/
def contieneLit (texto lit : String) : Bool :=
  contiene (minusculas texto.toList) lit.toList

/-- Rule score of the `dominican` category: pattern count plus the +2 bonus
for a literal `rnc` occurrence (`_predict_by_rules`). -/
def puntajeDominican (texto : String) : Nat :=
  cuentaPatrones texto ["RNC", "NCF", "ITBIS", "RD$", "COMPROBANTE FISCAL", "DGII"] +
    (if contieneLit texto "rnc" then 2 else 0)

/-- Rule score of the `peaje` category: pattern count plus the weighted
keyword bonuses of `_predict_by_rules`. -/
def puntajePeaje (texto : String) : Nat :=
  cuentaPatrones texto ["Ticket", "Peaje", "Vehiculo", "Importe", "Estacion", "Vial"] +
    (if contieneLit texto "ticket" && contieneLit texto "peaje" then 3 else 0) +
    (if contieneLit texto "vehiculo" && contieneLit texto "importe" then 2 else 0) +
    (if contieneLit texto "estacion" then 1 else 0) +
    (if contieneLit texto "fideicomiso" && contieneLit texto "vial" then 2 else 0) +
    (if contieneLit texto "operador" && contieneLit texto "peaje" then 1 else 0)

/-- The `scores` dict of `_predict_by_rules` after all bonus rules, in its
insertion order. -/
def puntajesReglas (texto : String) : List (String × Nat) :=
  [("dominican", puntajeDominican texto),
   ("international", cuentaPatrones texto ["NIT", "IVA", "USD", "TAX", "INVOICE", "VAT"]),
   ("peaje", puntajePeaje texto),
   ("simple", cuentaPatrones texto ["Factura", "Total", "Fecha", "Cliente", "Producto"]),
   ("detailed", cuentaPatrones texto ["Subtotal", "Descuento", "Impuesto", "Items", "Cantidad", "Precio"])]

/-- Python `max(items, key=lambda x: x[1])`: keep the current maximum and
replace it only on a strictly greater key, so the first of several equal
maxima wins. -/
def pyMaxBy (acc : String × Nat) : List (String × Nat) → String × Nat
  | [] => acc
  | x :: xs => pyMaxBy (if acc.2 < x.2 then x else acc) xs

/-- Rule-based category prediction (`InvoiceClassifier._predict_by_rules`):
the first maximal entry of the scores dict. -/
def predictByRules (texto : String) : String :=
  match puntajesReglas texto with
  | x :: xs => (pyMaxBy x xs).1
  | [] => ""

/-- Outcome of one inference call of a loaded statistical model: a predicted
category with its class probability, or a raised exception. -/
inductive MLOutcome where
  | pred (categoria : String) (confianza : ℚ)
  | err
deriving DecidableEq

/-- Model of `InvoiceClassifier.get_prediction_confidence`: with no loaded
model, the rule prediction with the fixed confidence 0.8; with a model, the
model's prediction and probability (no threshold); on an inference
exception, the rule prediction with the fixed confidence 0.7. -/
def getPredictionConfidence (classifier : Option (String → MLOutcome)) (texto : String) :
    String × ℚ :=
  match classifier with
  | none => (predictByRules texto, 4 / 5)
  | some f =>
    match f texto with
    | MLOutcome.pred c p => (c, p)
    | MLOutcome.err => (predictByRules texto, 7 / 10)

/-- Model of `InvoiceClassifier.predict`: this path applies the 0.6
probability threshold before trusting the model. -/
def predict (classifier : Option (String → MLOutcome)) (texto : String) : String :=
  match classifier with
  | none => predictByRules texto
  | some f =>
    match f texto with
    | MLOutcome.pred c p => if 3 / 5 < p then c else predictByRules texto
    | MLOutcome.err => predictByRules texto

/-- Model of `DataExtractor._clasificar_tipo_factura_seguro`: it calls
`get_prediction_confidence`, whose bare `except` never lets an exception
escape, and the returned pair always passes the isinstance checks, so the
wrapper is the identity on the classifier result. -/
def clasificarTipoFacturaSeguro (classifier : Option (String → MLOutcome)) (texto : String) :
    String × ℚ :=
  getPredictionConfidence classifier texto

/-! ## Result merging (`DataExtractor._combinar_resultados`) -/

/-- Field-name synonym table of `_normalizar_nombre_campo`. -/
def mapeoNombres : List (String × String) :=
  [("fecha_detectada", "fecha"), ("monto_detectado", "total"),
   ("empresa_detectada", "razon_social"), ("numero_documento", "rnc")]

/-- Model of `DataExtractor._normalizar_nombre_campo`. -/
def normalizarNombreCampo (campo : String) : String :=
  (dictGet mapeoNombres campo).getD campo

/-- Fields where the heuristic (ML) value may replace the regex value
(`campos_ml_preferidos` in `_combinar_resultados`). -/
def camposMLPreferidos : List String :=
  ["total", "fecha", "fecha_emision", "fecha_vencimiento"]

/-- Fields where a regex value, once present, is never overwritten by the
heuristic extractor (`campos_regex_preferidos` in `_combinar_resultados`). -/
def camposRegexPreferidos : List String :=
  ["rnc", "nit", "ncf", "numero_factura", "subtotal", "itbis",
   "rnc_emisor", "rnc_cliente", "nombre_emisor", "razon_social"]

/-- Model of `DataExtractor._tiene_mejor_formato_monto`: the anchored regex
`^\d+[.,]\d{2}$`. -/
def tieneMejorFormatoMonto (valor : String) : Bool :=
  let l := valor.toList
  let ds := l.takeWhile esDigito
  match l.drop ds.length with
  | [sep, a, b] => !ds.isEmpty && (sep == '.' || sep == ',') && esDigito a && esDigito b
  | _ => false

/-- Model of `DataExtractor._es_mejor_valor`. -/
def esMejorValor (valorML valorRegex : String) (texto campo : String) : Bool :=
  if campo ∈ ["razon_social"] then
    decide (valorRegex.length < valorML.length)
  else if campo ∈ ["total", "subtotal", "itbis"] then
    tieneMejorFormatoMonto valorML
  else
    false

/-- Model of `DataExtractor._combinar_resultados`: start from the regex dict
and fold the ML items over it with the priority rules of the source. -/
def combinarResultados (datosRegex datosML : List (String × String))
    (texto invoiceType : String) : List (String × String) :=
  datosML.foldl (fun resultados cv =>
    let cn := normalizarNombreCampo cv.1
    if cn ∈ camposRegexPreferidos ∧ (dictGet resultados cn).isSome then
      resultados
    else if cn ∈ camposMLPreferidos then
      match dictGet resultados cn with
      | none => dictSet resultados cn cv.2
      | some vr => if esMejorValor cv.2 vr texto cn then dictSet resultados cn cv.2 else resultados
    else if (dictGet resultados cn).isNone then
      dictSet resultados cn cv.2
    else
      resultados) datosRegex

/-! ## Money validation (`DataExtractor.validar_total_formato`) -/

/-- Model of Python `float(...)` restricted to plain decimal literals
(optional sign, digits, optional fraction part), the only shapes the money
fields of the pipeline produce; the parsed value is represented exactly as a
rational, which is faithful because the source never computes with it. -/
def parseFloatLit (s : String) : Option ℚ :=
  let l := stripList s.toList
  let p : ℤ × List Char :=
    match l with
    | '-' :: r => (-1, r)
    | '+' :: r => (1, r)
    | r => (1, r)
  let ip := p.2.takeWhile esDigito
  match p.2.drop ip.length with
  | [] => if ip.isEmpty then none else some (mkRat (p.1 * (valorDigitos ip : ℤ)) 1)
  | '.' :: fp =>
    if fp.all esDigito && !(ip.isEmpty && fp.isEmpty) then
      some (mkRat (p.1 * ((valorDigitos ip * 10 ^ fp.length + valorDigitos fp : ℕ) : ℤ))
        (10 ^ fp.length))
    else none
  | _ => none

/-- Cleaning step of `validar_total_formato`:
`str(total).replace('RD$', '').replace('$', '').replace(',', '').strip()`. -/
def limpiarMonto (s : String) : String :=
  pyStrip (pyReplace (pyReplace (pyReplace s "RD$" "") "$" "") "," "")

/-- Model of `DataExtractor.validar_total_formato`: empty (falsy) input is
rejected, otherwise the cleaned string is parsed as a float; a parse failure
is rejected and any parsed value is returned unchanged. -/
def validarTotalFormato (total : String) : Option ℚ :=
  if total = "" then none else parseFloatLit (limpiarMonto total)

/-! ## Date parsing (`DataExtractor.parsear_fecha_robusto`)

The five `strptime` formats are embedded as explicit parsers.  In CPython's
`_strptime`, `%d` matches `3[01]|[12]\d|0[1-9]|[1-9]` (one or two digits with
value 1..31), `%m` matches `1[0-2]|0[1-9]|[1-9]` (value 1..12), `%Y` matches
exactly four digits and `%y` exactly two (00-68 mapped to 2000-2068, 69-99 to
1969-1999); the whole string must be consumed, and the `datetime` constructor
then validates the day against the month length and the year against 1..9999,
raising `ValueError` (caught by the source, which then tries the next format).
-/

/-- Calendar date produced by a successful `strptime` call. -/
structure Fecha where
  y : Nat
  m : Nat
  d : Nat
deriving DecidableEq, Repr

/-- Split a character list on a separator character (model of the sequential
regex match of a `strptime` format with literal separators). -/
def splitSepAux (sep : Char) : List Char → List Char → List (List Char)
  | [], acc => [acc.reverse]
  | c :: cs, acc =>
    if c = sep then acc.reverse :: splitSepAux sep cs []
    else splitSepAux sep cs (c :: acc)

/-- Split on a separator character. -/
def splitSep (sep : Char) (l : List Char) : List (List Char) :=
  splitSepAux sep l []

/-- Field of a `strptime` day group `%d`. -/
def parseDia (l : List Char) : Option Nat :=
  if l.all esDigito && (l.length == 1 || l.length == 2) &&
      (1 ≤ valorDigitos l && valorDigitos l ≤ 31) then
    some (valorDigitos l)
  else none

/-- Field of a `strptime` month group `%m`. -/
def parseMes (l : List Char) : Option Nat :=
  if l.all esDigito && (l.length == 1 || l.length == 2) &&
      (1 ≤ valorDigitos l && valorDigitos l ≤ 12) then
    some (valorDigitos l)
  else none

/-- Field of a `strptime` four-digit year group `%Y`. -/
def parseAnio4 (l : List Char) : Option Nat :=
  if l.all esDigito && l.length == 4 then some (valorDigitos l) else none

/-- Field of a `strptime` two-digit year group `%y`, with the CPython century
mapping (00-68 to 2000s, 69-99 to 1900s). -/
def parseAnio2 (l : List Char) : Option Nat :=
  if l.all esDigito && l.length == 2 then
    some (if valorDigitos l ≤ 68 then 2000 + valorDigitos l else 1900 + valorDigitos l)
  else none

/-- Gregorian leap-year rule used by `datetime`. -/
def esBisiesto (y : Nat) : Bool :=
  y % 4 == 0 && (y % 100 != 0 || y % 400 == 0)

/-- Days in a month, as validated by the `datetime` constructor. -/
def diasEnMes (y m : Nat) : Nat :=
  if m == 2 then (if esBisiesto y then 29 else 28)
  else if m == 4 || m == 6 || m == 9 || m == 11 then 30
  else 31

/-- Validity check performed by the `datetime` constructor (year 1..9999,
month and day in range). -/
def fechaValida (y m d : Nat) : Bool :=
  1 ≤ y && y ≤ 9999 && 1 ≤ m && m ≤ 12 && 1 ≤ d && d ≤ diasEnMes y m

/-- Parser of the formats `%d/%m/%Y` and `%d-%m-%Y`. -/
def parseDMY (sep : Char) (l : List Char) : Option Fecha :=
  match splitSep sep l with
  | [ds, ms, ys] =>
    match parseDia ds, parseMes ms, parseAnio4 ys with
    | some d, some m, some y => if fechaValida y m d then some ⟨y, m, d⟩ else none
    | _, _, _ => none
  | _ => none

/-- Parser of the format `%Y-%m-%d`. -/
def parseYMD (sep : Char) (l : List Char) : Option Fecha :=
  match splitSep sep l with
  | [ys, ms, ds] =>
    match parseAnio4 ys, parseMes ms, parseDia ds with
    | some y, some m, some d => if fechaValida y m d then some ⟨y, m, d⟩ else none
    | _, _, _ => none
  | _ => none

/-- Parser of the formats `%d/%m/%y` and `%d-%m-%y`, including the source's
two-digit-year correction: a mapped year above 2030 has 100 subtracted
(`fecha_parsed.replace(year=fecha_parsed.year - 100)`, itself validated). -/
def parseDMy2 (sep : Char) (l : List Char) : Option Fecha :=
  match splitSep sep l with
  | [ds, ms, ys] =>
    match parseDia ds, parseMes ms, parseAnio2 ys with
    | some d, some m, some y =>
      if fechaValida y m d then
        let y2 := if 2030 < y then y - 100 else y
        if fechaValida y2 m d then some ⟨y2, m, d⟩ else none
      else none
    | _, _, _ => none
  | _ => none

/-- The format ladder of `parsear_fecha_robusto`, in source order:
`%d/%m/%Y`, `%d-%m-%Y`, `%Y-%m-%d`, `%d/%m/%y`, `%d-%m-%y`; a `ValueError`
in any attempt (match failure or invalid date) moves to the next format. -/
def parseFechaFormats (l : List Char) : Option Fecha :=
  match parseDMY '/' l with
  | some f => some f
  | none =>
    match parseDMY '-' l with
    | some f => some f
    | none =>
      match parseYMD '-' l with
      | some f => some f
      | none =>
        match parseDMy2 '/' l with
        | some f => some f
        | none => parseDMy2 '-' l

/-- Two zero-padded decimal digits, the model of `strftime('%d')`/`('%m')`. -/
def pad2 (n : Nat) : List Char := [digitChar (n / 10 % 10), digitChar (n % 10)]

/-- Four zero-padded decimal digits, the model of `strftime('%Y')` for years
with at least four digits (the only years the round-trip theorem covers,
because C `strftime` padding below year 1000 is platform dependent). -/
def pad4 (n : Nat) : List Char :=
  [digitChar (n / 1000 % 10), digitChar (n / 100 % 10), digitChar (n / 10 % 10),
   digitChar (n % 10)]

/-- Model of `fecha_parsed.strftime('%d/%m/%Y')`. -/
def formatoFecha (f : Fecha) : String :=
  ⟨pad2 f.d ++ ('/' :: (pad2 f.m ++ ('/' :: pad4 f.y)))⟩

/-- Model of `DataExtractor.parsear_fecha_robusto`: falsy input is rejected,
the stripped input is run through the format ladder, a success is rendered
as `DD/MM/YYYY`, and a failure returns the stripped input itself. -/
def parsearFechaRobusto (textoFecha : String) : Option String :=
  if textoFecha = "" then none
  else
    match parseFechaFormats (pyStrip textoFecha).toList with
    | some f => some (formatoFecha f)
    | none => some (pyStrip textoFecha)

/-- Canonical `DD/MM/YYYY` shape test (used to state the round-trip law). -/
def esFormatoCanonico (s : String) : Bool :=
  match s.toList with
  | [a, b, s1, c, d, s2, e, f, g, h] =>
    esDigito a && esDigito b && s1 == '/' && esDigito c && esDigito d && s2 == '/' &&
      esDigito e && esDigito f && esDigito g && esDigito h
  | _ => false

/-! ## Field validation (`DataExtractor.inicializar_validadores`,
`validar_campo`, `_validar_datos_robusto`)

The raw values entering validation are the strings produced by the regex and
heuristic extractors; validator results may also be numbers (the money
validator returns a float) or booleans (fallback metadata), hence `PyVal`.
A validator entry of the dispatch table is modelled as a function into
`VOutcome`, which makes a raised exception an explicit outcome; every
concrete validator of the repository only ever returns (`VOutcome.ok`). -/

/-- Python value stored in a result dict. -/
inductive PyVal where
  | vstr (s : String)
  | vnum (q : ℚ)
  | vbool (b : Bool)
deriving DecidableEq, Repr

/-- Truthiness of `str(valor_validado).strip()` as tested by
`_validar_datos_robusto`: a string is truthy when it strips to non-empty;
`str` of a float or bool is never empty or whitespace. -/
def pyvalTruthy : PyVal → Bool
  | PyVal.vstr s => !(stripList s.toList).isEmpty
  | PyVal.vnum _ => true
  | PyVal.vbool _ => true

/-- Outcome of one validator call: a returned value (possibly `None`) or a
raised exception. -/
inductive VOutcome where
  | ok (r : Option PyVal)
  | exn

/-- A validator dispatch table (`self.validadores`). -/
def VTable : Type := String → Option (String → VOutcome)

/-- Lift a total validator into the outcome type. -/
def envolver (f : String → Option PyVal) : String → VOutcome :=
  fun s => VOutcome.ok (f s)

/-- Uppercase ASCII letter test, the model of the regex class `[A-Z]`. -/
def esMayuscula (c : Char) : Bool :=
  decide (65 ≤ c.toNat) && decide (c.toNat ≤ 90)

/-- Matches the NCF pattern list of `validar_ncf_formato` against a cleaned
candidate.  The nine anchored regexes of the source reduce to the shape
checks below (the first two, `^[A-Z]\d{10}$` and `^[A-Z]\d{11}$`, are merged
into one letter-then-10-or-11-digits check). -/
def esPatronNcf (s : String) : Bool :=
  let l := s.toList
  (match l with
   | c :: r => esMayuscula c && r.all esDigito && (r.length == 10 || r.length == 11)
   | [] => false) ||
  (match l with
   | a :: b :: r => esMayuscula a && esMayuscula b && r.all esDigito && r.length == 9
   | _ => false) ||
  (match l with
   | 'B' :: '0' :: '1' :: r => r.all esDigito && r.length == 8
   | _ => false) ||
  (match l with
   | 'E' :: '3' :: '1' :: r => r.all esDigito && r.length == 8
   | _ => false) ||
  (match splitSep '-' l with
   | [a, b] => a.all esDigito && a.length == 3 && b.all esDigito &&
       (b.length == 7 || b.length == 8)
   | _ => false) ||
  (match splitSep '-' l with
   | [a, b, c] => a.all esDigito && a.length == 2 && b.all esDigito && b.length == 2 &&
       c.all esDigito && 4 ≤ c.length && c.length ≤ 8
   | _ => false) ||
  (match splitSep '-' l with
   | [a, b, c] => a.all esDigito && a.length == 4 && b.all esDigito && b.length == 4 &&
       c.all esDigito && c.length == 4
   | _ => false) ||
  (match splitSep '-' l with
   | [a, b, c] => a.length == 1 && a.all esMayuscula && b.all esDigito && b.length == 2 &&
       c.all esDigito && 4 ≤ c.length && c.length ≤ 8
   | _ => false)

/-- Model of `validar_ncf_formato`: falsy input rejected; the candidate is
stripped and uppercased; the literal `FALSE` is rejected; a pattern match
returns the cleaned value, otherwise `None`. -/
def validarNcfFormato (ncf : String) : Option PyVal :=
  if ncf = "" then none
  else
    let c : String := ⟨(stripList ncf.toList).map aMayuscula⟩
    if c = "FALSE" then none
    else if esPatronNcf c then some (PyVal.vstr c) else none

/-- Model of `validar_rnc_formato`: falsy input rejected; the stripped value
is returned both on the 9-to-11-digit success path and on the
`formato inusual` path, so the cleaned value always comes back. -/
def validarRncFormato (rnc : String) : Option PyVal :=
  if rnc = "" then none else some (PyVal.vstr (pyStrip rnc))

/-- Model of `validar_fecha_formato`, an alias of `parsear_fecha_robusto`. -/
def validarFechaFormato (fecha : String) : Option PyVal :=
  (parsearFechaRobusto fecha).map PyVal.vstr

/-- Model of `validar_numero_factura_formato`: falsy input rejected; any
non-empty stripped string is accepted. -/
def validarNumeroFacturaFormato (numero : String) : Option PyVal :=
  if numero = "" then none
  else
    let c := pyStrip numero
    if c = "" then none else some (PyVal.vstr c)

/-- Model of `validar_hora_formato`: falsy input rejected; both the regex
branch and the `formato inusual` branch of the source return the stripped
value. -/
def validarHoraFormato (hora : String) : Option PyVal :=
  if hora = "" then none else some (PyVal.vstr (pyStrip hora))

/-- Model of `validar_texto_general`: falsy input rejected; the stripped
value is accepted when it has at least two characters. -/
def validarTextoGeneral (texto : String) : Option PyVal :=
  if texto = "" then none
  else
    let c := pyStrip texto
    if c ≠ "" ∧ 2 ≤ c.length then some (PyVal.vstr c) else none

/-- The validator dispatch table built by `inicializar_validadores`, in its
insertion order. -/
def validadoresLista : List (String × (String → VOutcome)) :=
  [("ncf", envolver validarNcfFormato),
   ("rnc", envolver validarRncFormato),
   ("fecha", envolver validarFechaFormato),
   ("total", envolver (fun v => (validarTotalFormato v).map PyVal.vnum)),
   ("numero_factura", envolver validarNumeroFacturaFormato),
   ("nit", envolver validarRncFormato),
   ("identificacion", envolver validarRncFormato),
   ("razon_social", envolver validarTextoGeneral),
   ("vehiculo", envolver validarTextoGeneral),
   ("estacion", envolver validarTextoGeneral),
   ("hora", envolver validarHoraFormato),
   ("operador", envolver validarTextoGeneral),
   ("rnc_emisor", envolver validarRncFormato),
   ("rnc_cliente", envolver validarRncFormato),
   ("nombre_emisor", envolver validarTextoGeneral),
   ("subtotal", envolver (fun v => (validarTotalFormato v).map PyVal.vnum)),
   ("itbis", envolver (fun v => (validarTotalFormato v).map PyVal.vnum))]

/-- The concrete dispatch table of the repository. -/
def validadores : VTable := fun campo => dictGet validadoresLista campo

/-- Model of `DataExtractor.validar_campo`: `self.validadores.get` resolves
the field; with no entry the original value is returned unchanged; a raised
validator exception is caught and the original value returned.  (The
`AttributeError` sub-branch of the source re-dispatches to a fallback table
whose entries call the very same validators, so it is collapsed into the
generic handler; no concrete validator of the repository raises at all.) -/
def validarCampo (table : VTable) (campo valor : String) : Option PyVal :=
  match table campo with
  | none => some (PyVal.vstr valor)
  | some v =>
    match v valor with
    | VOutcome.ok r => r
    | VOutcome.exn => some (PyVal.vstr valor)

/-- Model of `DataExtractor._validar_datos_robusto`: iterate the combined
fields in insertion order; an `ncf` field of a `peaje` invoice is skipped
before validation; a validated value is kept when it is non-`None` and
str-truthy, and the field is dropped otherwise.  (The per-field `except`
branch of the source, which would keep the field unconditionally, is
unreachable: `validar_campo` catches every exception itself.) -/
def pasoValidacion (table : VTable) (invoiceType : String)
    (acc : List (String × PyVal)) (cv : String × String) : List (String × PyVal) :=
  if cv.1 = "ncf" ∧ invoiceType = "peaje" then acc
  else
    match validarCampo table cv.1 cv.2 with
    | some v => if pyvalTruthy v then dictSet acc cv.1 v else acc
    | none => acc

/-- Fold of `pasoValidacion` over the combined fields, starting from the
empty dict `datos_validados`. -/
def validarDatosRobusto (table : VTable) (datos : List (String × String))
    (invoiceType : String) : List (String × PyVal) :=
  datos.foldl (pasoValidacion table invoiceType) []

/-! ## Catastrophic fallback and entry point (`extraer_datos`,
`_extraccion_basica_fallback`) -/

/-- The failsafe pattern dict of `_extraccion_basica_fallback`, in insertion
order: an amount, a date, a taxpayer identifier and an invoice number. -/
def patronesFallback : List (String × String) :=
  [("total", "Total[^\\d]*([0-9,]+\\.?[0-9]*)"),
   ("fecha", "(\\d\x7b1,2\x7d/\\d\x7b1,2\x7d/\\d\x7b4\x7d)"),
   ("rnc", "RNC[:\\s]*(\\d\x7b9,11\x7d)"),
   ("numero_factura", "Factura[^\\n]*(\\d+)")]

/-- Model of `_extraccion_basica_fallback`.  The `re.search` library call is
the abstract parameter `search` (pattern and subject to the captured group 1,
`None` on no match); a match is stripped and stored, then the fixed fallback
metadata is written over the data dict exactly as `dict.update` does. -/
def pasoFallback (search : String → String → Option String) (texto : String)
    (acc : List (String × PyVal)) (pc : String × String) : List (String × PyVal) :=
  match search pc.2 texto with
  | some v => dictSet acc pc.1 (PyVal.vstr (pyStrip v))
  | none => acc

def extraccionBasicaFallback (search : String → String → Option String)
    (texto invoiceType : String) : List (String × PyVal) :=
  let datosBasicos := patronesFallback.foldl (pasoFallback search texto) []
  dictSet (dictSet (dictSet (dictSet (dictSet (dictSet (dictSet datosBasicos
    "tipo_factura" (PyVal.vstr invoiceType))
    "confianza_clasificacion" (PyVal.vnum (mkRat 1 10)))
    "calidad_texto" (PyVal.vstr "BAJA"))
    "total_campos_encontrados" (PyVal.vnum (datosBasicos.length : ℚ)))
    "metodo_extraccion" (PyVal.vstr "FALLBACK_BASICO"))
    "tiene_ncf" (PyVal.vbool false))
    "advertencia" (PyVal.vstr "Extracción limitada - sistema principal falló")

/-- Control-flow skeleton of `DataExtractor.extraer_datos`.  The whole main
path (classification, both extractors, merge, validation, quality analysis
and metadata assembly, source lines 146-156) is the `resultadoPrincipal`
argument, an `Except` whose error case is an exception raised anywhere in it;
`recorderOk` tells whether the subsequent `save_training_example` call
(line 159) returns normally.  Any exception reaches the single `except`
handler, which answers with `_extraccion_basica_fallback(texto, "general")`;
nothing ever propagates to the caller. -/
def extraerDatos (resultadoPrincipal : Except Unit (List (String × PyVal)))
    (recorderOk : Bool) (search : String → String → Option String)
    (texto : String) : List (String × PyVal) :=
  match resultadoPrincipal with
  | Except.error _ => extraccionBasicaFallback search texto "general"
  | Except.ok resultadoFinal =>
    if recorderOk then resultadoFinal
    else extraccionBasicaFallback search texto "general"

/-- A validator that always raises, used to exercise the exception branch of
`validar_campo` (no concrete validator of the repository ever raises). -/
def validadorQueFalla : String → VOutcome := fun _ => VOutcome.exn

/-- A dispatch table whose `fecha` validator raises. -/
def tablaConFallo : VTable :=
  fun campo => if campo = "fecha" then some validadorQueFalla else none

/-! ## Claim theorems -/

theorem dictGet_dictSet_self {α : Type} (l : List (String × α)) (k : String) (v : α) :
    dictGet (dictSet l k v) k = some v := by
  induction l with
  | nil => simp [dictGet, dictSet]
  | cons p rest ih =>
    by_cases h : p.1 = k
    · simp [dictSet, h, dictGet]
    · simp [dictSet, h, dictGet, ih]

theorem dictGet_dictSet_ne {α : Type} (l : List (String × α)) (k k' : String) (v : α)
    (h : k' ≠ k) : dictGet (dictSet l k' v) k = dictGet l k := by
  induction l with
  | nil => simp [dictGet, dictSet, h]
  | cons p rest ih =>
    by_cases hp : p.1 = k'
    · simp [dictSet, hp, dictGet, h]
    · by_cases hk : p.1 = k
      · simp [dictSet, hp, dictGet, hk, Ne.symm h]
      · simp [dictSet, hp, dictGet, hk, ih]

theorem dictGet_dictSet_isSome {α : Type} (l : List (String × α)) (k k' : String) (v : α)
    (h : (dictGet (dictSet l k' v) k).isSome = true) :
    k = k' ∨ (dictGet l k).isSome = true := by
  by_cases he : k = k'
  · exact Or.inl he
  · right
    rwa [dictGet_dictSet_ne l k k' v (fun hh => he hh.symm)] at h

theorem le_pyMaxBy_acc : ∀ (l : List (String × Nat)) (acc : String × Nat),
    acc.2 ≤ (pyMaxBy acc l).2 := by
  intro l
  induction l with
  | nil => intro acc; simp [pyMaxBy]
  | cons x xs ih =>
    intro acc
    by_cases h : acc.2 < x.2
    · simpa [pyMaxBy, h] using le_trans (le_of_lt h) (ih x)
    · simpa [pyMaxBy, h] using ih acc

theorem le_pyMaxBy_mem : ∀ (l : List (String × Nat)) (acc x : String × Nat),
    x ∈ l → x.2 ≤ (pyMaxBy acc l).2 := by
  intro l
  induction l with
  | nil => intro acc x hx; simp at hx
  | cons y ys ih =>
    intro acc x hx
    rcases List.mem_cons.mp hx with h | h
    · subst h
      by_cases hlt : acc.2 < x.2
      · simpa [pyMaxBy, hlt] using le_pyMaxBy_acc ys x
      · exact le_trans (le_of_not_lt hlt) (by simpa [pyMaxBy, hlt] using le_pyMaxBy_acc ys acc)
    · by_cases hlt : acc.2 < y.2
      · simpa [pyMaxBy, hlt] using ih y x h
      · simpa [pyMaxBy, hlt] using ih acc x h

theorem pyMaxBy_eq_or_mem : ∀ (l : List (String × Nat)) (acc : String × Nat),
    pyMaxBy acc l = acc ∨ pyMaxBy acc l ∈ l := by
  intro l
  induction l with
  | nil => intro acc; left; simp [pyMaxBy]
  | cons x xs ih =>
    intro acc
    by_cases h : acc.2 < x.2
    · rcases ih x with h' | h'
      · right; simp [pyMaxBy, h, h']
      · right; simp [pyMaxBy, h]; right; exact h'
    · rcases ih acc with h' | h'
      · left; simpa [pyMaxBy, h] using h'
      · right; simp [pyMaxBy, h]; right; exact h'

theorem pyMaxBy_of_ge : ∀ (l : List (String × Nat)) (acc : String × Nat),
    (∀ x ∈ l, x.2 ≤ acc.2) → pyMaxBy acc l = acc := by
  intro l
  induction l with
  | nil => intro acc _; simp [pyMaxBy]
  | cons x xs ih =>
    intro acc h
    have hx : ¬ acc.2 < x.2 := not_lt.mpr (h x (by simp))
    simpa [pyMaxBy, hx] using ih acc (fun y hy => h y (by simp [hy]))

theorem pasoValidacion_ncf_none (table : VTable) (invoiceType : String)
    (acc : List (String × PyVal)) (cv : String × String)
    (hacc : dictGet acc "ncf" = none)
    (hcv : cv.1 = "ncf" → invoiceType = "peaje") :
    dictGet (pasoValidacion table invoiceType acc cv) "ncf" = none := by
  by_cases hn : cv.1 = "ncf"
  · simp [pasoValidacion, hn, hcv hn, hacc]
  · unfold pasoValidacion
    by_cases hskip : cv.1 = "ncf" ∧ invoiceType = "peaje"
    · simp [hskip, hacc]
    · simp only [hskip, if_false]
      cases validarCampo table cv.1 cv.2 with
      | none => exact hacc
      | some v =>
        by_cases ht : pyvalTruthy v
        · simp [ht, dictGet_dictSet_ne acc "ncf" cv.1 v hn, hacc]
        · simp [ht, hacc]

theorem validarDatosRobusto_peaje_aux (table : VTable) :
    ∀ (datos : List (String × String)) (acc : List (String × PyVal)),
      dictGet acc "ncf" = none →
      dictGet (datos.foldl (pasoValidacion table "peaje") acc) "ncf" = none := by
  intro datos
  induction datos with
  | nil => intro acc hacc; simpa using hacc
  | cons cv rest ih =>
    intro acc hacc
    exact ih (pasoValidacion table "peaje" acc cv)
      (pasoValidacion_ncf_none table "peaje" acc cv hacc (fun _ => rfl))

/-- C1.  For a `peaje` (toll) invoice the validated field dict never contains
an `ncf` entry, whatever candidate fields the extraction strategies produced:
`_validar_datos_robusto` skips the `ncf` field before invoking any validator
when `invoice_type == 'peaje'`. -/
theorem ncf_ausente_en_peaje (datos : List (String × String)) :
    dictGet (validarDatosRobusto validadores datos "peaje") "ncf" = none :=
  validarDatosRobusto_peaje_aux validadores datos [] rfl

theorem combinar_single (regex : List (String × String)) (f v t it : String) :
    combinarResultados regex [(f, v)] t it =
      (let cn := normalizarNombreCampo f
       if cn ∈ camposRegexPreferidos ∧ (dictGet regex cn).isSome then regex
       else if cn ∈ camposMLPreferidos then
         match dictGet regex cn with
         | none => dictSet regex cn v
         | some vr => if esMejorValor v vr t cn then dictSet regex cn v else regex
       else if (dictGet regex cn).isNone then dictSet regex cn v
       else regex) := rfl

theorem combinar_regex_lock (regex : List (String × String)) (f v t it w : String)
    (hmem : f ∈ camposRegexPreferidos) (hcn : normalizarNombreCampo f = f)
    (hget : dictGet regex f = some w) :
    dictGet (combinarResultados regex [(f, v)] t it) f = some w := by
  rw [combinar_single]
  simp only [hcn]
  rw [hget]
  rw [if_pos ⟨hmem, rfl⟩]
  exact hget

theorem combinar_ml_fecha (regex : List (String × String)) (f v t it w : String)
    (hmem : f ∈ camposMLPreferidos) (hno : f ∉ camposRegexPreferidos)
    (hcn : normalizarNombreCampo f = f) (hpeor : esMejorValor v w t f = false)
    (hget : dictGet regex f = some w) :
    dictGet (combinarResultados regex [(f, v)] t it) f = some w := by
  rw [combinar_single]
  simp only [hcn]
  rw [hget]
  rw [if_neg (fun h => hno h.1), if_pos hmem]
  dsimp only
  simp only [hpeor]
  simp only [Bool.false_eq_true, if_false]
  exact hget

/-- C2 (amended).  The merge law of `_combinar_resultados` as the source
implements it: the heuristic-eligible set is only
`{total, fecha, fecha_emision, fecha_vencimiento}`; for `total` the heuristic
value replaces a present regex value exactly when it matches the money shape
`^\d+[.,]\d{2}$` (so a well-formed `150.00` replaces a malformed `150.0`),
for the date fields a present regex value is never replaced, and
`subtotal`/`itbis` sit in the regex-locked set together with the identifier
and name fields, whose regex values are kept unconditionally. -/
theorem combinar_resultados_amended :
    (∀ (regex : List (String × String)) (v t it : String),
      dictGet regex "total" = none →
      dictGet (combinarResultados regex [("total", v)] t it) "total" = some v) ∧
    (∀ (regex : List (String × String)) (w v t it : String),
      dictGet regex "total" = some w → tieneMejorFormatoMonto v = true →
      dictGet (combinarResultados regex [("total", v)] t it) "total" = some v) ∧
    (∀ (regex : List (String × String)) (w v t it : String),
      dictGet regex "total" = some w → tieneMejorFormatoMonto v = false →
      dictGet (combinarResultados regex [("total", v)] t it) "total" = some w) ∧
    (∀ (regex : List (String × String)) (w v t it f : String),
      f ∈ ["fecha", "fecha_emision", "fecha_vencimiento"] →
      dictGet regex f = some w →
      dictGet (combinarResultados regex [(f, v)] t it) f = some w) ∧
    (∀ (regex : List (String × String)) (w v t it f : String),
      f ∈ camposRegexPreferidos →
      dictGet regex f = some w →
      dictGet (combinarResultados regex [(f, v)] t it) f = some w) := by
  refine ⟨?_, ?_, ?_, ?_, ?_⟩
  · intro regex v t it hget
    rw [combinar_single]
    have hcn : normalizarNombreCampo "total" = "total" := by decide
    simp only [hcn, hget]
    rw [if_neg (by simp [camposRegexPreferidos, hget]), if_pos (by decide)]
    exact dictGet_dictSet_self regex "total" v
  · intro regex w v t it hget hfmt
    rw [combinar_single]
    have hcn : normalizarNombreCampo "total" = "total" := by decide
    simp only [hcn, hget]
    rw [if_neg (by simp [camposRegexPreferidos]), if_pos (by decide)]
    have hmejor : esMejorValor v w t "total" = true := by
      simp [esMejorValor, hfmt]
    rw [if_pos hmejor]
    exact dictGet_dictSet_self regex "total" v
  · intro regex w v t it hget hfmt
    rw [combinar_single]
    have hcn : normalizarNombreCampo "total" = "total" := by decide
    simp only [hcn, hget]
    rw [if_neg (by simp [camposRegexPreferidos]), if_pos (by decide)]
    have hmejor : esMejorValor v w t "total" = false := by
      simp [esMejorValor, hfmt]
    rw [if_neg (by simp [hmejor])]
    exact hget
  · intro regex w v t it f hf hget
    simp only [List.mem_cons, List.mem_singleton, List.not_mem_nil, or_false] at hf
    rcases hf with rfl | rfl | rfl <;>
      exact combinar_ml_fecha regex _ v t it w (by decide) (by decide) (by decide)
        (by simp [esMejorValor]) hget
  · intro regex w v t it f hf hget
    simp only [camposRegexPreferidos, List.mem_cons, List.mem_singleton,
      List.not_mem_nil, or_false] at hf
    rcases hf with rfl | rfl | rfl | rfl | rfl | rfl | rfl | rfl | rfl | rfl <;>
      exact combinar_regex_lock regex _ v t it w (by decide) (by decide) hget

/-- C2 witness: the spec's own example holds for `total` (the well-formed
heuristic `150.00` replaces the malformed regex `150.0`), instantiating the
amended merge law at concrete inputs. -/
theorem combinar_resultados_amended_w :
    dictGet (combinarResultados [("total", "150.0")] [("total", "150.00")] "" "general")
      "total" = some "150.00" :=
  combinar_resultados_amended.2.1 [("total", "150.0")] "150.0" "150.00" "" "general"
    (by decide) (by decide)

/-- C2 counterexample.  The claim includes `subtotal` (and `itbis`) in the
heuristic-eligible set, predicting that the well-formed heuristic `150.00`
replaces the malformed regex `150.0` for `subtotal`; the code keeps `150.0`,
because `subtotal` is in `campos_regex_preferidos` and a present regex value
is never overwritten there. -/
theorem combinar_resultados_cx :
    dictGet (combinarResultados [("subtotal", "150.0")] [("subtotal", "150.00")] "" "general")
      "subtotal" = some "150.0" ∧
    tieneMejorFormatoMonto "150.00" = true ∧
    some "150.0" ≠ some "150.00" := by
  refine ⟨by decide, by decide, by decide⟩

/-- C3 (amended).  The `save_training_example` call sits inside the top-level
`try` of `extraer_datos`, after `resultado_final` is assembled: when the
recorder returns normally the assembled result is returned, but when it
raises, the single `except` handler answers with the basic fallback result
instead, so a recorder failure never propagates an exception yet does change
the returned result. -/
theorem extraer_datos_recorder_amended (r : List (String × PyVal))
    (search : String → String → Option String) (texto : String) :
    extraerDatos (Except.ok r) true search texto = r ∧
    extraerDatos (Except.ok r) false search texto =
      extraccionBasicaFallback search texto "general" ∧
    ∀ e : Unit, extraerDatos (Except.error e) true search texto =
      extraccionBasicaFallback search texto "general" :=
  ⟨rfl, rfl, fun _ => rfl⟩

/-- C3 counterexample.  With the main path succeeding with the normal hybrid
result, a recorder failure makes `extraer_datos` return the
`FALLBACK_BASICO` result instead of that result, so the returned value is
not identical to the one returned had the recorder call succeeded. -/
theorem extraer_datos_recorder_cx :
    extraerDatos (Except.ok [("metodo_extraccion", PyVal.vstr "HIBRIDO_ML")]) true
        (fun _ _ => none) "texto" ≠
      extraerDatos (Except.ok [("metodo_extraccion", PyVal.vstr "HIBRIDO_ML")]) false
        (fun _ _ => none) "texto" := by
  decide

/-- C4 (amended).  The classification used by the pipeline
(`_clasificar_tipo_factura_seguro` via `get_prediction_confidence`) returns
the loaded model's predicted category and probability unconditionally — no
0.6 threshold is applied on that path; the rule fallback is used only with
no model (fixed confidence 0.8) or on an inference exception (fixed
confidence 0.7).  The probability-above-0.6 gate exists only in the separate
`predict` method, which the pipeline does not call. -/
theorem clasificacion_umbral_amended :
    (∀ (f : String → MLOutcome) (t c : String) (p : ℚ), f t = MLOutcome.pred c p →
      clasificarTipoFacturaSeguro (some f) t = (c, p)) ∧
    (∀ (f : String → MLOutcome) (t : String), f t = MLOutcome.err →
      clasificarTipoFacturaSeguro (some f) t = (predictByRules t, 7 / 10)) ∧
    (∀ t : String, clasificarTipoFacturaSeguro none t = (predictByRules t, 4 / 5)) ∧
    (∀ (f : String → MLOutcome) (t c : String) (p : ℚ), f t = MLOutcome.pred c p →
      p ≤ 3 / 5 → predict (some f) t = predictByRules t) ∧
    (∀ (f : String → MLOutcome) (t c : String) (p : ℚ), f t = MLOutcome.pred c p →
      3 / 5 < p → predict (some f) t = c) := by
  refine ⟨?_, ?_, ?_, ?_, ?_⟩
  · intro f t c p h
    simp [clasificarTipoFacturaSeguro, getPredictionConfidence, h]
  · intro f t h
    simp [clasificarTipoFacturaSeguro, getPredictionConfidence, h]
  · intro t
    simp [clasificarTipoFacturaSeguro, getPredictionConfidence]
  · intro f t c p h hp
    simp [predict, h, not_lt.mpr hp]
  · intro f t c p h hp
    simp [predict, h, hp]

/-- C4 witness: the amended law applied at a concrete model whose inference
answers `simple` with probability one half. -/
theorem clasificacion_umbral_amended_w :
    clasificarTipoFacturaSeguro (some (fun _ => MLOutcome.pred "simple" (mkRat 1 2)))
      "factura" = ("simple", mkRat 1 2) :=
  clasificacion_umbral_amended.1 (fun _ => MLOutcome.pred "simple" (mkRat 1 2))
    "factura" "simple" (mkRat 1 2) rfl

/-- C4 counterexample.  A loaded model predicting `simple` with probability
0.5 (not above 0.6) on a text whose rule-based category is `peaje`: the
claim says the pipeline classification must fall back to `peaje`, but
`get_prediction_confidence` returns the model's `simple` unconditionally. -/
theorem clasificacion_umbral_cx :
    clasificarTipoFacturaSeguro (some (fun _ => MLOutcome.pred "simple" (mkRat 1 2)))
        "ticket peaje" = ("simple", mkRat 1 2) ∧
    mkRat 1 2 ≤ 3 / 5 ∧
    predictByRules "ticket peaje" = "peaje" ∧
    ("simple" : String) ≠ "peaje" :=
  ⟨rfl, by norm_num, by decide, by decide⟩

/-- First-maximum property of the Python `max` model. -/
theorem pyMaxBy_spec (h : String × Nat) (T : List (String × Nat)) :
    ∃ n, ((pyMaxBy h T).1, n) ∈ h :: T ∧ ∀ p ∈ h :: T, p.2 ≤ n := by
  refine ⟨(pyMaxBy h T).2, ?_, ?_⟩
  · rcases pyMaxBy_eq_or_mem T h with he | hm
    · rw [Prod.mk.eta, he]
      exact List.mem_cons_self _ _
    · rw [Prod.mk.eta]
      exact List.mem_cons_of_mem _ hm
  · intro p hp
    rcases List.mem_cons.mp hp with rfl | hm
    · exact le_pyMaxBy_acc T p
    · exact le_pyMaxBy_mem T h p hm

theorem pyMaxBy_primero : ∀ (T : List (String × Nat)) (h : String × Nat),
    ∃ l1 l2, h :: T = l1 ++ pyMaxBy h T :: l2 ∧
      (∀ x ∈ h :: T, x.2 ≤ (pyMaxBy h T).2) ∧
      ∀ x ∈ l1, x.2 < (pyMaxBy h T).2 := by
  intro T
  induction T with
  | nil =>
    intro h
    refine ⟨[], [], by simp [pyMaxBy], ?_, by simp⟩
    intro y hy
    simp only [List.mem_singleton] at hy
    subst hy
    simp [pyMaxBy]
  | cons x xs ih =>
    intro h
    by_cases hlt : h.2 < x.2
    · obtain ⟨l1, l2, heq, hmax, hstrict⟩ := ih x
      have hr : pyMaxBy h (x :: xs) = pyMaxBy x xs := by simp [pyMaxBy, hlt]
      have hxle : x.2 ≤ (pyMaxBy x xs).2 := hmax x (List.mem_cons_self _ _)
      refine ⟨h :: l1, l2, ?_, ?_, ?_⟩
      · rw [hr, List.cons_append]
        exact congrArg (List.cons h) heq
      · intro y hy
        rw [hr]
        rcases List.mem_cons.mp hy with rfl | hy'
        · exact le_trans (le_of_lt hlt) hxle
        · exact hmax y hy'
      · intro y hy
        rw [hr]
        rcases List.mem_cons.mp hy with rfl | hy'
        · exact lt_of_lt_of_le hlt hxle
        · exact hstrict y hy'
    · obtain ⟨l1, l2, heq, hmax, hstrict⟩ := ih h
      have hr : pyMaxBy h (x :: xs) = pyMaxBy h xs := by simp [pyMaxBy, hlt]
      have hxle : x.2 ≤ h.2 := le_of_not_lt hlt
      have hhle : h.2 ≤ (pyMaxBy h xs).2 := hmax h (List.mem_cons_self _ _)
      cases l1 with
      | nil =>
        simp only [List.nil_append] at heq
        injection heq with hh hl2
        refine ⟨[], x :: xs, ?_, ?_, by simp⟩
        · rw [hr, List.nil_append, ← hh]
        · intro y hy
          rw [hr]
          rcases List.mem_cons.mp hy with rfl | hy'
          · exact hhle
          · rcases List.mem_cons.mp hy' with rfl | hy''
            · exact le_trans hxle hhle
            · exact hmax y (List.mem_cons_of_mem _ hy'')
      | cons a l1' =>
        rw [List.cons_append] at heq
        injection heq with hha hxs
        have hstrh : h.2 < (pyMaxBy h xs).2 :=
          hstrict h (by rw [hha]; exact List.mem_cons_self _ _)
        refine ⟨h :: x :: l1', l2, ?_, ?_, ?_⟩
        · rw [hr, List.cons_append, List.cons_append]
          exact congrArg (fun t => h :: x :: t) hxs
        · intro y hy
          rw [hr]
          rcases List.mem_cons.mp hy with rfl | hy'
          · exact hhle
          · rcases List.mem_cons.mp hy' with rfl | hy''
            · exact le_trans hxle hhle
            · exact hmax y (List.mem_cons_of_mem _ hy'')
        · intro y hy
          rw [hr]
          rcases List.mem_cons.mp hy with rfl | hy'
          · exact hstrh
          · rcases List.mem_cons.mp hy' with rfl | hy''
            · exact lt_of_le_of_lt hxle hstrh
            · exact hstrict y (List.mem_cons_of_mem _ hy'')

/-- C5 (amended).  The rule-based classifier picks the FIRST maximal-score
category of the scores dict in its insertion order `dominican >
international > peaje > simple > detailed` (there is no `generic` entry and
Python `max` keeps the first maximal item): the chosen category sits in the
scores dict with some score `n`, every category scores at most `n`, and
every category listed before the chosen one scores strictly less than `n` —
which determines the winner of every tie by that fixed order, so in
particular an all-zero score vector (e.g. empty text) yields `dominican`. -/
theorem reglas_max_amended (texto : String) :
    ∃ l1 l2 n,
      puntajesReglas texto = l1 ++ (predictByRules texto, n) :: l2 ∧
      (∀ p ∈ puntajesReglas texto, p.2 ≤ n) ∧
      ∀ p ∈ l1, p.2 < n := by
  obtain ⟨l1, l2, heq, hmax, hstrict⟩ := pyMaxBy_primero
    [("international", cuentaPatrones texto ["NIT", "IVA", "USD", "TAX", "INVOICE", "VAT"]),
     ("peaje", puntajePeaje texto),
     ("simple", cuentaPatrones texto ["Factura", "Total", "Fecha", "Cliente", "Producto"]),
     ("detailed", cuentaPatrones texto
       ["Subtotal", "Descuento", "Impuesto", "Items", "Cantidad", "Precio"])]
    ("dominican", puntajeDominican texto)
  refine ⟨l1, l2,
    (pyMaxBy ("dominican", puntajeDominican texto)
      [("international", cuentaPatrones texto ["NIT", "IVA", "USD", "TAX", "INVOICE", "VAT"]),
       ("peaje", puntajePeaje texto),
       ("simple", cuentaPatrones texto ["Factura", "Total", "Fecha", "Cliente", "Producto"]),
       ("detailed", cuentaPatrones texto
         ["Subtotal", "Descuento", "Impuesto", "Items", "Cantidad", "Precio"])]).2,
    ?_, hmax, hstrict⟩
  show puntajesReglas texto = l1 ++
    ((pyMaxBy ("dominican", puntajeDominican texto)
      [("international", cuentaPatrones texto ["NIT", "IVA", "USD", "TAX", "INVOICE", "VAT"]),
       ("peaje", puntajePeaje texto),
       ("simple", cuentaPatrones texto ["Factura", "Total", "Fecha", "Cliente", "Producto"]),
       ("detailed", cuentaPatrones texto
         ["Subtotal", "Descuento", "Impuesto", "Items", "Cantidad", "Precio"])]).1,
     (pyMaxBy ("dominican", puntajeDominican texto)
      [("international", cuentaPatrones texto ["NIT", "IVA", "USD", "TAX", "INVOICE", "VAT"]),
       ("peaje", puntajePeaje texto),
       ("simple", cuentaPatrones texto ["Factura", "Total", "Fecha", "Cliente", "Producto"]),
       ("detailed", cuentaPatrones texto
         ["Subtotal", "Descuento", "Impuesto", "Items", "Cantidad", "Precio"])]).2) :: l2
  rw [Prod.mk.eta]
  exact heq

/-- C5 witness: applying the amended first-maximum law to the empty text,
whose scores are all zero, forces the strictly-smaller prefix to be empty,
so the head of the dict order — `dominican` — is chosen. -/
theorem reglas_max_amended_w : predictByRules "" = "dominican" := by
  obtain ⟨l1, l2, n, heq, hmax, hstrict⟩ := reglas_max_amended ""
  have hps : puntajesReglas "" =
      [("dominican", 0), ("international", 0), ("peaje", 0), ("simple", 0),
       ("detailed", 0)] := by decide
  cases l1 with
  | nil =>
    rw [hps] at heq
    simp only [List.nil_append] at heq
    injection heq with hh hl2
    exact (congrArg Prod.fst hh).symm
  | cons a l1' =>
    exfalso
    have hmem : (predictByRules "", n) ∈ puntajesReglas "" := by
      rw [heq]
      exact List.mem_append_right _ (List.mem_cons_self _ _)
    have hamem : a ∈ puntajesReglas "" := by
      rw [heq]
      exact List.mem_append_left _ (List.mem_cons_self _ _)
    rw [hps] at hmem hamem
    have hn : n = 0 := by
      simp only [List.mem_cons, List.not_mem_nil, or_false, Prod.mk.injEq] at hmem
      rcases hmem with ⟨_, h0⟩ | ⟨_, h0⟩ | ⟨_, h0⟩ | ⟨_, h0⟩ | ⟨_, h0⟩ <;> exact h0
    have ha0 : a.2 = 0 := by
      simp only [List.mem_cons, List.not_mem_nil, or_false] at hamem
      rcases hamem with rfl | rfl | rfl | rfl | rfl <;> rfl
    have hlt := hstrict a (List.mem_cons_self _ _)
    omega

/-- C5 counterexample.  On `"ncf ticket"` the `dominican` and `peaje` (toll)
scores tie at 1, yet the code answers `dominican`, contradicting the claimed
`toll`-first tie-break; and on empty text (all scores zero) the code answers
`dominican`, not the claimed `generic`. -/
theorem reglas_max_cx :
    puntajePeaje "ncf ticket" = puntajeDominican "ncf ticket" ∧
    predictByRules "ncf ticket" = "dominican" ∧
    ("dominican" : String) ≠ "peaje" ∧
    predictByRules "" = "dominican" ∧
    ("dominican" : String) ≠ "general" := by
  refine ⟨by decide, by decide, by decide, by decide, by decide⟩

/-- C6 (amended).  `validar_total_formato` strips the currency markers
`RD$`/`$` and the thousands separator `,`, trims, and parses the remainder
as a float; it returns absent exactly when the input is empty (falsy) or
that parse fails.  The accepted value is the parsed number unchanged: the
code performs no sign check, no upper bound check and no fraction-digit
normalization, so negative amounts and amounts above 10,000,000 are
accepted as-is. -/
theorem validar_total_amended :
    (∀ (s : String) (q : ℚ), validarTotalFormato s = some q ↔
      (s ≠ "" ∧ parseFloatLit (limpiarMonto s) = some q)) ∧
    (∃ (s : String) (q : ℚ), validarTotalFormato s = some q ∧ q < 0) ∧
    (∃ (s : String) (q : ℚ), validarTotalFormato s = some q ∧ 10000000 < q) := by
  refine ⟨?_, ?_, ?_⟩
  · intro s q
    constructor
    · intro h
      by_cases hs : s = ""
      · rw [validarTotalFormato, if_pos hs] at h
        exact absurd h (by simp)
      · rw [validarTotalFormato, if_neg hs] at h
        exact ⟨hs, h⟩
    · intro ⟨hs, h⟩
      rw [validarTotalFormato, if_neg hs]
      exact h
  · exact ⟨"-5.25", mkRat (-21) 4, by decide, by decide⟩
  · exact ⟨"20000000.00", 20000000, by decide, by decide⟩

/-- C6 witness: the amended acceptance law applied at the concrete input
`150.00`, which the validator accepts with value 150. -/
theorem validar_total_amended_w : validarTotalFormato "150.00" = some 150 :=
  (validar_total_amended.1 "150.00" 150).mpr ⟨by decide, by decide⟩

/-- C6 counterexample.  The claim says a negative or greater-than-10,000,000
parse result is rejected: the code accepts `-5.25` (a negative value) and
`20000000.00` (twice the claimed bound) unchanged. -/
theorem validar_total_cx :
    validarTotalFormato "-5.25" = some (mkRat (-21) 4) ∧
    mkRat (-21) 4 < 0 ∧
    validarTotalFormato "20000000.00" = some 20000000 ∧
    (10000000 : ℚ) < 20000000 := by
  refine ⟨by decide, by decide, by decide, by decide⟩

theorem esDigito_digitChar (k : Nat) (h : k < 10) : esDigito (digitChar k) = true := by
  interval_cases k <;> decide

theorem valorDigito_digitChar (k : Nat) (h : k < 10) : valorDigito (digitChar k) = k := by
  interval_cases k <;> decide

theorem digitChar_ne_barra (k : Nat) (h : k < 10) : digitChar k ≠ '/' := by
  interval_cases k <;> decide

theorem digitChar_ne_guion (k : Nat) (h : k < 10) : digitChar k ≠ '-' := by
  interval_cases k <;> decide

theorem esEspacio_digitChar (k : Nat) (h : k < 10) : esEspacio (digitChar k) = false := by
  interval_cases k <;> decide

theorem valorDigitos_pad2 (n : Nat) (h : n < 100) : valorDigitos (pad2 n) = n := by
  have h1 : n / 10 % 10 < 10 := Nat.mod_lt _ (by norm_num)
  have h2 : n % 10 < 10 := Nat.mod_lt _ (by norm_num)
  simp only [valorDigitos, pad2, List.foldl, valorDigito_digitChar _ h1,
    valorDigito_digitChar _ h2]
  omega

theorem valorDigitos_pad4 (n : Nat) (h : n < 10000) : valorDigitos (pad4 n) = n := by
  have h1 : n / 1000 % 10 < 10 := Nat.mod_lt _ (by norm_num)
  have h2 : n / 100 % 10 < 10 := Nat.mod_lt _ (by norm_num)
  have h3 : n / 10 % 10 < 10 := Nat.mod_lt _ (by norm_num)
  have h4 : n % 10 < 10 := Nat.mod_lt _ (by norm_num)
  simp only [valorDigitos, pad4, List.foldl, valorDigito_digitChar _ h1,
    valorDigito_digitChar _ h2, valorDigito_digitChar _ h3, valorDigito_digitChar _ h4]
  omega

theorem pad2_mem (n : Nat) (c : Char) (hc : c ∈ pad2 n) : ∃ k, k < 10 ∧ c = digitChar k := by
  simp only [pad2, List.mem_cons, List.not_mem_nil, or_false] at hc
  rcases hc with rfl | rfl
  · exact ⟨n / 10 % 10, Nat.mod_lt _ (by norm_num), rfl⟩
  · exact ⟨n % 10, Nat.mod_lt _ (by norm_num), rfl⟩

theorem pad4_mem (n : Nat) (c : Char) (hc : c ∈ pad4 n) : ∃ k, k < 10 ∧ c = digitChar k := by
  simp only [pad4, List.mem_cons, List.not_mem_nil, or_false] at hc
  rcases hc with rfl | rfl | rfl | rfl
  · exact ⟨n / 1000 % 10, Nat.mod_lt _ (by norm_num), rfl⟩
  · exact ⟨n / 100 % 10, Nat.mod_lt _ (by norm_num), rfl⟩
  · exact ⟨n / 10 % 10, Nat.mod_lt _ (by norm_num), rfl⟩
  · exact ⟨n % 10, Nat.mod_lt _ (by norm_num), rfl⟩

theorem pad2_all_digitos (n : Nat) : (pad2 n).all esDigito = true := by
  rw [List.all_eq_true]
  intro c hc
  obtain ⟨k, hk, rfl⟩ := pad2_mem n c hc
  exact esDigito_digitChar k hk

theorem pad4_all_digitos (n : Nat) : (pad4 n).all esDigito = true := by
  rw [List.all_eq_true]
  intro c hc
  obtain ⟨k, hk, rfl⟩ := pad4_mem n c hc
  exact esDigito_digitChar k hk

theorem pad2_length (n : Nat) : (pad2 n).length = 2 := rfl

theorem pad4_length (n : Nat) : (pad4 n).length = 4 := rfl

theorem splitSepAux_no_sep (sep : Char) :
    ∀ (a l acc : List Char), (∀ c ∈ a, c ≠ sep) →
      splitSepAux sep (a ++ l) acc = splitSepAux sep l (a.reverse ++ acc) := by
  intro a
  induction a with
  | nil => intro l acc _; simp
  | cons c a' ih =>
    intro l acc h
    have hc : c ≠ sep := h c (List.mem_cons_self _ _)
    have step : splitSepAux sep ((c :: a') ++ l) acc = splitSepAux sep (a' ++ l) (c :: acc) := by
      simp [splitSepAux, hc]
    rw [step, ih l (c :: acc) (fun x hx => h x (List.mem_cons_of_mem _ hx))]
    simp

theorem splitSep_tres (sep : Char) (a b c : List Char)
    (ha : ∀ x ∈ a, x ≠ sep) (hb : ∀ x ∈ b, x ≠ sep) (hc : ∀ x ∈ c, x ≠ sep) :
    splitSep sep (a ++ (sep :: (b ++ (sep :: c)))) = [a, b, c] := by
  unfold splitSep
  rw [splitSepAux_no_sep sep a (sep :: (b ++ (sep :: c))) [] ha]
  have h1 : splitSepAux sep (sep :: (b ++ (sep :: c))) (a.reverse ++ []) =
      (a.reverse ++ []).reverse :: splitSepAux sep (b ++ (sep :: c)) [] := by
    simp [splitSepAux]
  rw [h1, splitSepAux_no_sep sep b (sep :: c) [] hb]
  have h2 : splitSepAux sep (sep :: c) (b.reverse ++ []) =
      (b.reverse ++ []).reverse :: splitSepAux sep c [] := by
    simp [splitSepAux]
  rw [h2]
  have h3 : splitSepAux sep c [] = [c] := by
    have h0 := splitSepAux_no_sep sep c [] [] hc
    simpa [splitSepAux] using h0
  rw [h3]
  simp

theorem parseDia_pad2 (d : Nat) (h1 : 1 ≤ d) (h2 : d ≤ 31) : parseDia (pad2 d) = some d := by
  have hv : valorDigitos (pad2 d) = d := valorDigitos_pad2 d (by omega)
  simp [parseDia, pad2_all_digitos, pad2_length, hv, h1, h2]

theorem parseMes_pad2 (m : Nat) (h1 : 1 ≤ m) (h2 : m ≤ 12) : parseMes (pad2 m) = some m := by
  have hv : valorDigitos (pad2 m) = m := valorDigitos_pad2 m (by omega)
  simp [parseMes, pad2_all_digitos, pad2_length, hv, h1, h2]

theorem parseAnio4_pad4 (y : Nat) (h : y < 10000) : parseAnio4 (pad4 y) = some y := by
  have hv : valorDigitos (pad4 y) = y := valorDigitos_pad4 y h
  simp [parseAnio4, pad4_all_digitos, pad4_length, hv]

theorem diasEnMes_le_31 (y m : Nat) : diasEnMes y m ≤ 31 := by
  unfold diasEnMes
  split
  · split <;> omega
  · split <;> omega

theorem fechaValida_destruct {y m d : Nat} (h : fechaValida y m d = true) :
    1 ≤ y ∧ y ≤ 9999 ∧ 1 ≤ m ∧ m ≤ 12 ∧ 1 ≤ d ∧ d ≤ diasEnMes y m := by
  simp only [fechaValida, Bool.and_eq_true, decide_eq_true_eq] at h
  exact ⟨h.1.1.1.1.1, h.1.1.1.1.2, h.1.1.1.2, h.1.1.2, h.1.2, h.2⟩

theorem parseDMY_formato (y m d : Nat) (h : fechaValida y m d = true) :
    parseDMY '/' (pad2 d ++ ('/' :: (pad2 m ++ ('/' :: pad4 y)))) = some ⟨y, m, d⟩ := by
  obtain ⟨hy1, hy2, hm1, hm2, hd1, hd2⟩ := fechaValida_destruct h
  have hd31 : d ≤ 31 := le_trans hd2 (diasEnMes_le_31 y m)
  have hsplit := splitSep_tres '/' (pad2 d) (pad2 m) (pad4 y)
    (fun x hx => by obtain ⟨k, hk, rfl⟩ := pad2_mem d x hx; exact digitChar_ne_barra k hk)
    (fun x hx => by obtain ⟨k, hk, rfl⟩ := pad2_mem m x hx; exact digitChar_ne_barra k hk)
    (fun x hx => by obtain ⟨k, hk, rfl⟩ := pad4_mem y x hx; exact digitChar_ne_barra k hk)
  unfold parseDMY
  rw [hsplit]
  dsimp only
  rw [parseDia_pad2 d hd1 hd31, parseMes_pad2 m hm1 hm2, parseAnio4_pad4 y (by omega)]
  simp [h]

theorem parseDMY_valida {sep : Char} {l : List Char} {f : Fecha}
    (h : parseDMY sep l = some f) : fechaValida f.y f.m f.d = true := by
  unfold parseDMY at h
  split at h
  · split at h
    · split at h
      · cases h
        assumption
      · exact absurd h (by simp)
    · exact absurd h (by simp)
  · exact absurd h (by simp)

theorem parseYMD_valida {sep : Char} {l : List Char} {f : Fecha}
    (h : parseYMD sep l = some f) : fechaValida f.y f.m f.d = true := by
  unfold parseYMD at h
  split at h
  · split at h
    · split at h
      · cases h
        assumption
      · exact absurd h (by simp)
    · exact absurd h (by simp)
  · exact absurd h (by simp)

theorem parseDMy2_valida {sep : Char} {l : List Char} {f : Fecha}
    (h : parseDMy2 sep l = some f) : fechaValida f.y f.m f.d = true := by
  unfold parseDMy2 at h
  split at h
  · split at h
    · split at h
      · dsimp only at h
        split at h
        all_goals
          first
            | (cases h; assumption)
            | (split at h
               · cases h; assumption
               · exact absurd h (by simp))
      · exact absurd h (by simp)
    · exact absurd h (by simp)
  · exact absurd h (by simp)

theorem parseFechaFormats_valida {l : List Char} {f : Fecha}
    (h : parseFechaFormats l = some f) : fechaValida f.y f.m f.d = true := by
  unfold parseFechaFormats at h
  split at h
  · cases h
    exact parseDMY_valida (by assumption)
  · split at h
    · cases h
      exact parseDMY_valida (by assumption)
    · split at h
      · cases h
        exact parseYMD_valida (by assumption)
      · split at h
        · cases h
          exact parseDMy2_valida (by assumption)
        · exact parseDMy2_valida h

theorem parseFechaFormats_formato (f : Fecha) (h : fechaValida f.y f.m f.d = true) :
    parseFechaFormats (formatoFecha f).toList = some f := by
  have hlist : (formatoFecha f).toList =
      pad2 f.d ++ ('/' :: (pad2 f.m ++ ('/' :: pad4 f.y))) := rfl
  have hdmy := parseDMY_formato f.y f.m f.d h
  unfold parseFechaFormats
  rw [hlist, hdmy]

theorem stripList_id (l : List Char) (h : ∀ c ∈ l, esEspacio c = false) :
    stripList l = l := by
  have hdrop : ∀ (m : List Char), (∀ c ∈ m, esEspacio c = false) → m.dropWhile esEspacio = m := by
    intro m hm
    cases m with
    | nil => rfl
    | cons c cs => simp [List.dropWhile_cons, hm c (List.mem_cons_self _ _)]
  unfold stripList
  rw [hdrop l h]
  rw [hdrop l.reverse (fun c hc => h c (List.mem_reverse.mp hc))]
  exact List.reverse_reverse l

theorem formatoFecha_sin_espacios (f : Fecha) :
    ∀ c ∈ (formatoFecha f).toList, esEspacio c = false := by
  intro c hc
  have hlist : (formatoFecha f).toList =
      pad2 f.d ++ ('/' :: (pad2 f.m ++ ('/' :: pad4 f.y))) := rfl
  rw [hlist] at hc
  simp only [List.mem_append, List.mem_cons] at hc
  rcases hc with hc | hc | hc
  · obtain ⟨k, hk, rfl⟩ := pad2_mem f.d c hc
    exact esEspacio_digitChar k hk
  · subst hc; rfl
  · rcases hc with hc | hc | hc
    · obtain ⟨k, hk, rfl⟩ := pad2_mem f.m c hc
      exact esEspacio_digitChar k hk
    · subst hc; rfl
    · obtain ⟨k, hk, rfl⟩ := pad4_mem f.y c hc
      exact esEspacio_digitChar k hk

theorem esFormatoCanonico_formato (f : Fecha) : esFormatoCanonico (formatoFecha f) = true := by
  have e1 := esDigito_digitChar (f.d / 10 % 10) (Nat.mod_lt _ (by norm_num))
  have e2 := esDigito_digitChar (f.d % 10) (Nat.mod_lt _ (by norm_num))
  have e3 := esDigito_digitChar (f.m / 10 % 10) (Nat.mod_lt _ (by norm_num))
  have e4 := esDigito_digitChar (f.m % 10) (Nat.mod_lt _ (by norm_num))
  have e5 := esDigito_digitChar (f.y / 1000 % 10) (Nat.mod_lt _ (by norm_num))
  have e6 := esDigito_digitChar (f.y / 100 % 10) (Nat.mod_lt _ (by norm_num))
  have e7 := esDigito_digitChar (f.y / 10 % 10) (Nat.mod_lt _ (by norm_num))
  have e8 := esDigito_digitChar (f.y % 10) (Nat.mod_lt _ (by norm_num))
  show (esDigito (digitChar (f.d / 10 % 10)) && esDigito (digitChar (f.d % 10)) &&
    (('/' : Char) == '/') && esDigito (digitChar (f.m / 10 % 10)) &&
    esDigito (digitChar (f.m % 10)) && (('/' : Char) == '/') &&
    esDigito (digitChar (f.y / 1000 % 10)) && esDigito (digitChar (f.y / 100 % 10)) &&
    esDigito (digitChar (f.y / 10 % 10)) && esDigito (digitChar (f.y % 10))) = true
  rw [e1, e2, e3, e4, e5, e6, e7, e8]
  rfl

/-- C7 (amended).  For a raw date value that one of the five `strptime`
formats accepts (with a year of at least four digits, where `%Y` output is
platform independent), `parsear_fecha_robusto` stores the canonical
`DD/MM/YYYY` rendering, that rendering re-parses under the same ladder to
the very same calendar date (the round-trip law), and re-running the parser
on the stored value is the identity.  Raw values no format accepts are
returned (stripped) rather than rejected, so they reach the field map
unconverted — the round-trip law holds only for parseable inputs. -/
theorem fecha_roundtrip_amended (s : String) (f : Fecha)
    (h : parseFechaFormats (stripList s.toList) = some f) (hy : 1000 ≤ f.y) :
    parsearFechaRobusto s = some (formatoFecha f) ∧
    esFormatoCanonico (formatoFecha f) = true ∧
    parseFechaFormats (formatoFecha f).toList = some f ∧
    parsearFechaRobusto (formatoFecha f) = some (formatoFecha f) := by
  have hval := parseFechaFormats_valida h
  have hs : s ≠ "" := by
    intro he
    rw [he] at h
    rw [show parseFechaFormats (stripList "".toList) = none from by decide] at h
    exact Option.noConfusion h
  have hround := parseFechaFormats_formato f hval
  refine ⟨?_, esFormatoCanonico_formato f, hround, ?_⟩
  · unfold parsearFechaRobusto
    rw [if_neg hs]
    have hp : parseFechaFormats (pyStrip s).toList = some f := h
    rw [hp]
  · have hne : formatoFecha f ≠ "" := by
      intro he
      have := congrArg String.toList he
      rw [show (formatoFecha f).toList =
        pad2 f.d ++ ('/' :: (pad2 f.m ++ ('/' :: pad4 f.y))) from rfl] at this
      simp [pad2] at this
    unfold parsearFechaRobusto
    rw [if_neg hne]
    have hstrip : pyStrip (formatoFecha f) = formatoFecha f := by
      have : stripList (formatoFecha f).toList = (formatoFecha f).toList :=
        stripList_id _ (formatoFecha_sin_espacios f)
      unfold pyStrip
      rw [this]
      rfl
    rw [hstrip, hround]

/-- C7 witness: the round-trip law applied to the concrete raw value
`8/3/2025`, accepted by the first format and stored as `08/03/2025`. -/
theorem fecha_roundtrip_amended_w :
    parsearFechaRobusto "8/3/2025" = some (formatoFecha ⟨2025, 3, 8⟩) ∧
    esFormatoCanonico (formatoFecha ⟨2025, 3, 8⟩) = true ∧
    parseFechaFormats (formatoFecha ⟨2025, 3, 8⟩).toList = some ⟨2025, 3, 8⟩ ∧
    parsearFechaRobusto (formatoFecha ⟨2025, 3, 8⟩) = some (formatoFecha ⟨2025, 3, 8⟩) :=
  fecha_roundtrip_amended "8/3/2025" ⟨2025, 3, 8⟩ (by decide) (by decide)

/-- C7 counterexample.  The claim asserts every value stored in a date field
matches `DD/MM/YYYY`; but the validator returns unparseable input unchanged
rather than rejecting it, so the raw value `fecha invalida` is stored in the
`fecha` field of the validated map and does not match the canonical shape. -/
theorem fecha_roundtrip_cx :
    parsearFechaRobusto "fecha invalida" = some "fecha invalida" ∧
    esFormatoCanonico "fecha invalida" = false ∧
    validarDatosRobusto validadores [("fecha", "fecha invalida")] "general" =
      [("fecha", PyVal.vstr "fecha invalida")] := by
  refine ⟨by decide, by decide, by decide⟩

theorem validarCampo_exn {table : VTable} {campo valor : String} {v : String → VOutcome}
    (htab : table campo = some v) (hexn : v valor = VOutcome.exn) :
    validarCampo table campo valor = some (PyVal.vstr valor) := by
  unfold validarCampo
  rw [htab]
  dsimp only
  rw [hexn]

theorem validarCampo_ok {table : VTable} {campo valor : String} {v : String → VOutcome}
    {r : Option PyVal} (htab : table campo = some v) (hok : v valor = VOutcome.ok r) :
    validarCampo table campo valor = r := by
  unfold validarCampo
  rw [htab]
  dsimp only
  rw [hok]

theorem validarCampo_sin_entrada {table : VTable} {campo valor : String}
    (htab : table campo = none) :
    validarCampo table campo valor = some (PyVal.vstr valor) := by
  unfold validarCampo
  rw [htab]

theorem validarDatosRobusto_single (table : VTable) (campo valor invoiceType : String)
    (hskip : ¬(campo = "ncf" ∧ invoiceType = "peaje")) :
    validarDatosRobusto table [(campo, valor)] invoiceType =
      match validarCampo table campo valor with
      | some v => if pyvalTruthy v then [(campo, v)] else []
      | none => [] := by
  show pasoValidacion table invoiceType [] (campo, valor) = _
  unfold pasoValidacion
  rw [if_neg hskip]
  cases validarCampo table campo valor with
  | none => rfl
  | some v =>
    by_cases ht : pyvalTruthy v
    · simp [ht, dictSet]
    · simp [ht]

/-- C8 (amended).  In `_validar_datos_robusto`/`validar_campo`, a raised
validator exception is caught and the raw un-normalized value put back, but
the raw value is then still subject to the emptiness filter: the field is
kept with its raw value exactly when that value str-strips to non-empty,
and a whitespace-only raw value is dropped even on an exception.  An
explicit `None` result, and any result that str-strips to empty, drops the
field.  No exception escapes to the caller in any case. -/
theorem validacion_excepcion_amended (table : VTable) (campo valor invoiceType : String)
    (v : String → VOutcome) (htab : table campo = some v)
    (hskip : ¬(campo = "ncf" ∧ invoiceType = "peaje")) :
    (v valor = VOutcome.exn → (stripList valor.toList).isEmpty = false →
      validarDatosRobusto table [(campo, valor)] invoiceType =
        [(campo, PyVal.vstr valor)]) ∧
    (v valor = VOutcome.exn → (stripList valor.toList).isEmpty = true →
      validarDatosRobusto table [(campo, valor)] invoiceType = []) ∧
    (v valor = VOutcome.ok none →
      validarDatosRobusto table [(campo, valor)] invoiceType = []) ∧
    (∀ r, v valor = VOutcome.ok (some r) → pyvalTruthy r = false →
      validarDatosRobusto table [(campo, valor)] invoiceType = []) ∧
    (∀ r, v valor = VOutcome.ok (some r) → pyvalTruthy r = true →
      validarDatosRobusto table [(campo, valor)] invoiceType = [(campo, r)]) := by
  refine ⟨?_, ?_, ?_, ?_, ?_⟩
  · intro hexn hne
    rw [validarDatosRobusto_single table campo valor invoiceType hskip,
      validarCampo_exn htab hexn]
    simp only [pyvalTruthy, hne, Bool.not_false]
    simp
  · intro hexn hne
    rw [validarDatosRobusto_single table campo valor invoiceType hskip,
      validarCampo_exn htab hexn]
    simp only [pyvalTruthy, hne, Bool.not_true]
    simp
  · intro hok
    rw [validarDatosRobusto_single table campo valor invoiceType hskip,
      validarCampo_ok htab hok]
  · intro r hok ht
    rw [validarDatosRobusto_single table campo valor invoiceType hskip,
      validarCampo_ok htab hok]
    simp [ht]
  · intro r hok ht
    rw [validarDatosRobusto_single table campo valor invoiceType hskip,
      validarCampo_ok htab hok]
    simp [ht]

/-- C8 witness: a raising validator on the non-empty raw value `x` keeps the
field with the raw value, instantiating the amended contract. -/
theorem validacion_excepcion_amended_w :
    validarDatosRobusto tablaConFallo [("fecha", "x")] "general" =
      [("fecha", PyVal.vstr "x")] :=
  (validacion_excepcion_amended tablaConFallo "fecha" "x" "general" validadorQueFalla
    rfl (by decide)).1 rfl (by decide)

/-- C8 counterexample.  The claim says a field whose validator raises is
kept with its raw value and never dropped; with a raising validator and the
whitespace raw value `" "` the caught exception puts the raw value back but
the emptiness filter then drops the field. -/
theorem validacion_excepcion_cx :
    tablaConFallo "fecha" = some validadorQueFalla ∧
    validadorQueFalla " " = VOutcome.exn ∧
    validarDatosRobusto tablaConFallo [("fecha", " ")] "general" = [] ∧
    ([] : List (String × PyVal)) ≠ [("fecha", PyVal.vstr " ")] := by
  refine ⟨rfl, rfl, by decide, by decide⟩

/-- C10 (amended).  A field name with no entry in the validator dispatch
table passes through `validar_campo` unchanged with no exception; in the
validated output it is then kept unvalidated exactly when the raw value
str-strips to non-empty — a whitespace-only value of an unknown field is
still dropped by the emptiness filter of `_validar_datos_robusto`. -/
theorem campo_sin_validador_amended (campo valor invoiceType : String)
    (htab : dictGet validadoresLista campo = none)
    (hskip : ¬(campo = "ncf" ∧ invoiceType = "peaje")) :
    validarCampo validadores campo valor = some (PyVal.vstr valor) ∧
    ((stripList valor.toList).isEmpty = false →
      validarDatosRobusto validadores [(campo, valor)] invoiceType =
        [(campo, PyVal.vstr valor)]) ∧
    ((stripList valor.toList).isEmpty = true →
      validarDatosRobusto validadores [(campo, valor)] invoiceType = []) := by
  have hc : validarCampo validadores campo valor = some (PyVal.vstr valor) :=
    validarCampo_sin_entrada htab
  refine ⟨hc, ?_, ?_⟩
  · intro hne
    rw [validarDatosRobusto_single validadores campo valor invoiceType hskip, hc]
    simp only [pyvalTruthy, hne, Bool.not_false]
    simp
  · intro hne
    rw [validarDatosRobusto_single validadores campo valor invoiceType hskip, hc]
    simp only [pyvalTruthy, hne, Bool.not_true]
    simp

/-- C10 witness: the unknown field `descripcion` with the non-empty value
`Pago de servicios` passes into the validated map unvalidated. -/
theorem campo_sin_validador_amended_w :
    validarCampo validadores "descripcion" "Pago de servicios" =
      some (PyVal.vstr "Pago de servicios") ∧
    validarDatosRobusto validadores [("descripcion", "Pago de servicios")] "general" =
      [("descripcion", PyVal.vstr "Pago de servicios")] :=
  ⟨(campo_sin_validador_amended "descripcion" "Pago de servicios" "general"
      rfl (by decide)).1,
   (campo_sin_validador_amended "descripcion" "Pago de servicios" "general"
      rfl (by decide)).2.1 (by decide)⟩

/-- C10 counterexample.  `validar_campo` does return the unknown field's raw
value unchanged, but the claim's consequence — that the field therefore
passes into the validated output map rather than being dropped — fails on a
whitespace-only value, which the emptiness filter drops. -/
theorem campo_sin_validador_cx :
    validarCampo validadores "descripcion" " " = some (PyVal.vstr " ") ∧
    validarDatosRobusto validadores [("descripcion", " ")] "general" = [] ∧
    ([] : List (String × PyVal)) ≠ [("descripcion", PyVal.vstr " ")] := by
  refine ⟨by decide, by decide, by decide⟩

theorem pasoFallback_isSome (search : String → String → Option String) (texto : String)
    (acc : List (String × PyVal)) (pc : String × String) (k : String)
    (h : (dictGet (pasoFallback search texto acc pc) k).isSome = true) :
    (dictGet acc k).isSome = true ∨ k = pc.1 := by
  unfold pasoFallback at h
  cases hsea : search pc.2 texto with
  | none => rw [hsea] at h; exact Or.inl h
  | some v =>
    rw [hsea] at h
    rcases dictGet_dictSet_isSome acc k pc.1 _ h with he | hs
    · exact Or.inr he
    · exact Or.inl hs

theorem foldFallback_claves (search : String → String → Option String) (texto : String) :
    ∀ (pats : List (String × String)) (acc : List (String × PyVal)) (k : String),
      (dictGet (pats.foldl (pasoFallback search texto) acc) k).isSome = true →
      (dictGet acc k).isSome = true ∨ k ∈ pats.map Prod.fst := by
  intro pats
  induction pats with
  | nil => intro acc k h; exact Or.inl h
  | cons pc rest ih =>
    intro acc k h
    rcases ih (pasoFallback search texto acc pc) k h with hacc | hmem
    · rcases pasoFallback_isSome search texto acc pc k hacc with hs | he
      · exact Or.inl hs
      · right; simp [he]
    · right; simp [hmem]

/-- C9 (amended).  On any exception anywhere in the main chain the entry
point answers with `_extraccion_basica_fallback(texto, 'general')` instead
of raising; the fallback extracts only through the four failsafe patterns —
an amount (`total`), a date (`fecha`), the taxpayer identifier (`rnc`) and
the invoice number (`numero_factura`) — plus fixed metadata, and tags the
result with the degraded marker `FALLBACK_BASICO` and the fixed low
confidence 0.1. -/
theorem fallback_basico_amended (search : String → String → Option String)
    (texto k : String) :
    ((dictGet (extraccionBasicaFallback search texto "general") k).isSome = true →
      k ∈ ["total", "fecha", "rnc", "numero_factura", "tipo_factura",
        "confianza_clasificacion", "calidad_texto", "total_campos_encontrados",
        "metodo_extraccion", "tiene_ncf", "advertencia"]) ∧
    dictGet (extraccionBasicaFallback search texto "general") "metodo_extraccion" =
      some (PyVal.vstr "FALLBACK_BASICO") ∧
    dictGet (extraccionBasicaFallback search texto "general") "confianza_clasificacion" =
      some (PyVal.vnum (mkRat 1 10)) ∧
    ∀ recorderOk, extraerDatos (Except.error ()) recorderOk search texto =
      extraccionBasicaFallback search texto "general" := by
  refine ⟨?_, ?_, ?_, fun _ => rfl⟩
  · intro h
    unfold extraccionBasicaFallback at h
    rcases dictGet_dictSet_isSome _ k "advertencia" _ h with rfl | h
    · simp
    rcases dictGet_dictSet_isSome _ k "tiene_ncf" _ h with rfl | h
    · simp
    rcases dictGet_dictSet_isSome _ k "metodo_extraccion" _ h with rfl | h
    · simp
    rcases dictGet_dictSet_isSome _ k "total_campos_encontrados" _ h with rfl | h
    · simp
    rcases dictGet_dictSet_isSome _ k "calidad_texto" _ h with rfl | h
    · simp
    rcases dictGet_dictSet_isSome _ k "confianza_clasificacion" _ h with rfl | h
    · simp
    rcases dictGet_dictSet_isSome _ k "tipo_factura" _ h with rfl | h
    · simp
    rcases foldFallback_claves search texto patronesFallback [] k h with habs | hmem
    · rw [show (dictGet ([] : List (String × PyVal)) k) = none from rfl] at habs
      exact absurd habs (by simp)
    · simp only [patronesFallback, List.map] at hmem
      simp only [List.mem_cons, List.not_mem_nil, or_false] at hmem
      rcases hmem with rfl | rfl | rfl | rfl <;> simp
  · unfold extraccionBasicaFallback
    rw [dictGet_dictSet_ne _ _ _ _ (by decide), dictGet_dictSet_ne _ _ _ _ (by decide)]
    exact dictGet_dictSet_self _ _ _
  · unfold extraccionBasicaFallback
    rw [dictGet_dictSet_ne _ _ _ _ (by decide), dictGet_dictSet_ne _ _ _ _ (by decide),
      dictGet_dictSet_ne _ _ _ _ (by decide), dictGet_dictSet_ne _ _ _ _ (by decide),
      dictGet_dictSet_ne _ _ _ _ (by decide)]
    exact dictGet_dictSet_self _ _ _

/-- C9 witness: the field-set law applied with a search oracle that matches
nothing, at the key carrying the degraded-method marker. -/
theorem fallback_basico_amended_w :
    "metodo_extraccion" ∈ ["total", "fecha", "rnc", "numero_factura", "tipo_factura",
      "confianza_clasificacion", "calidad_texto", "total_campos_encontrados",
      "metodo_extraccion", "tiene_ncf", "advertencia"] :=
  (fallback_basico_amended (fun _ _ => none) "" "metodo_extraccion").1 (by decide)

/-- C9 counterexample.  The claim restricts the failsafe patterns to amount,
date and identifier fields only; the fourth failsafe pattern fills the
`numero_factura` field — in the spec's own taxonomy a document-number field,
not an identifier — as the modelled `re.search` of the pattern
`Factura[^\n]*(\d+)` over the text `Factura No. 123` shows. -/
theorem fallback_basico_cx :
    dictGet (extraccionBasicaFallback
        (fun pat _ => if pat = "Factura[^\\n]*(\\d+)" then some "123" else none)
        "Factura No. 123" "general") "numero_factura" = some (PyVal.vstr "123") ∧
    "numero_factura" ∉ ["total", "fecha", "rnc"] := by
  refine ⟨by decide, by decide⟩
